import Mathlib

/-!
# Verification of the WcofunDownloader core against its specification

Shallow embedding of the repository's core functions:

* `Scraper.isValidVideoUrl`, `Scraper.determineUrlType` (scraper service),
* `Downloader.sanitizePathName`, `Downloader.pauseDownload`,
  `Downloader.resumeDownload`, `Downloader.cancelDownload` and the
  initialization part of `Downloader.downloadFile`
  (`src/server/services/downloader.ts`),
* `MemStorage.createDownload` / `updateDownload` (`src/server/storage.ts`),
* the series branch of `POST /api/downloads` (`src/server/routes.ts`).

JavaScript strings are modelled as Lean `String` / `List Char`
(ASCII-faithful; `s.length` is the character count, which agrees with JS
UTF-16 length on the ASCII inputs considered here).  The in-memory store,
the module-level `activeDownloads` map and the filesystem are modelled as
explicit state, and the sequential `await` chains of the TypeScript code
are modelled as atomic state transformations in program order.
-/

namespace WcofunDL

/-! ## Character and string helpers -/

/-- The characters matched by the regex class `[/\\?%*:|"<>]` in
`Downloader.sanitizePathName` (downloader.ts line 331). -/
def hostileChars : List Char := ['/', '\\', '?', '%', '*', ':', '|', '"', '<', '>']

/-- Tests whether `c` is a filesystem-hostile character. -/
def isHostile (c : Char) : Bool := hostileChars.contains c

/-- JS regex `\s` restricted to the ASCII range: the whitespace characters
collapsed by the `replace(/\s+/g, '-')` pass (downloader.ts line 332). -/
def wsChars : List Char := [' ', '\t', '\n', '\r', '\x0b', '\x0c']

/-- Tests whether `c` is whitespace. -/
def isWs (c : Char) : Bool := wsChars.contains c

/-- Embeds `name.replace(/[/\\?%*:|"<>]/g, '-')`: the class matches single
characters, so the global replace is a per-character map. -/
def replaceHostile (l : List Char) : List Char :=
  l.map fun c => if isHostile c then '-' else c

/-- Worker for `replace(/\s+/g, '-')`: a maximal run of whitespace becomes a
single `'-'`.  The boolean records whether the previous character was
whitespace (i.e. whether we are inside a run already replaced). -/
def collapseWsAux : Bool → List Char → List Char
  | _, [] => []
  | true, c :: cs => if isWs c then collapseWsAux true cs else c :: collapseWsAux false cs
  | false, c :: cs => if isWs c then '-' :: collapseWsAux true cs else c :: collapseWsAux false cs

/-- Embeds `replace(/\s+/g, '-')` (downloader.ts line 332). -/
def collapseWs (l : List Char) : List Char := collapseWsAux false l

/-- Embeds `Downloader.sanitizePathName` (downloader.ts lines 329-334):
replace hostile characters with `'-'`, collapse whitespace runs to `'-'`,
lowercase.  JS `toLowerCase` is modelled per character by `Char.toLower`,
which lowers exactly the basic-latin letters. -/
def sanitizePathName (name : String) : String :=
  String.mk ((collapseWs (replaceHostile name.data)).map Char.toLower)

/-- JS `s.includes(sub)`. -/
def includesStr (s sub : String) : Bool :=
  s.data.tails.any fun t => sub.data.isPrefixOf t

/-- JS `s.startsWith(pre)`. -/
def startsWithStr (s pre : String) : Bool := pre.data.isPrefixOf s.data

/-- JS `s.toLowerCase()` (basic-latin model, per character). -/
def toLowerStr (s : String) : String := String.mk (s.data.map Char.toLower)

/-- Characters strictly after the first occurrence of `c`, if any. -/
def afterFirst (c : Char) : List Char → Option (List Char)
  | [] => none
  | x :: xs => if x = c then some xs else afterFirst c xs

/-- Characters up to (excluding) the first occurrence of `c`. -/
def upTo (c : Char) : List Char → List Char
  | [] => []
  | x :: xs => if x = c then [] else x :: upTo c xs

/-- Split on a separator character; the result is always nonempty, like
JS `String.prototype.split`. -/
def splitOnChar (sep : Char) : List Char → List (List Char)
  | [] => [[]]
  | c :: cs =>
    let r := splitOnChar sep cs
    if c = sep then [] :: r else (c :: r.headD []) :: r.tail

/-! ## Scraper (src/unnamed/part_000) -/

/-- The extension list of `Scraper.isValidVideoUrl` (part_000 line 27). -/
def validExtensions : List String := [".mp4", ".m3u8", ".flv", ".webm", ".mov", ".mkv"]

/-- Embeds `validExtensions.some(ext => url.toLowerCase().includes(ext))`. -/
def hasValidExtension (url : String) : Bool :=
  validExtensions.any fun ext => includesStr (toLowerStr url) ext

/-- Embeds `url.split('?')[1] || ''`: the text between the first `'?'` and the
second `'?'` (or the end), empty when there is no `'?'`. -/
def queryString (url : String) : List Char :=
  match afterFirst '?' url.data with
  | none => []
  | some rest => upTo '?' rest

/-- The parameter names of `new URLSearchParams(url.split('?')[1] || '')`:
nonempty `'&'`-separated pieces, each truncated at its first `'='`.
Percent-decoding is not exercised by the inputs considered here. -/
def queryKeys (url : String) : List (List Char) :=
  ((splitOnChar '&' (queryString url)).filter fun p => ¬p.isEmpty).map (upTo '=')

/-- Embeds `urlParams.has('file') || urlParams.has('source') || urlParams.has('video')`
(part_000 line 33). -/
def hasVideoParams (url : String) : Bool :=
  (queryKeys url).contains "file".data ||
  (queryKeys url).contains "source".data ||
  (queryKeys url).contains "video".data

/-- Whether the authority component (text before the first `'/'`, `'?'` or
`'#'`) is nonempty. -/
def hostNonempty (l : List Char) : Bool :=
  ¬(l.takeWhile fun c => ¬(c == '/' || c == '?' || c == '#')).isEmpty

/-- Models `new URL(url)` succeeding (part_000 lines 42-48).  Only URLs that
already passed the scheme check reach this point, and for `http`/`https`
URLs the WHATWG parser used by Node succeeds exactly when a nonempty host
is present, which is what this model requires. -/
def canParseUrl (url : String) : Bool :=
  if startsWithStr url "http://" then hostNonempty (url.data.drop 7)
  else if startsWithStr url "https://" then hostNonempty (url.data.drop 8)
  else false

/-- Embeds `Scraper.isValidVideoUrl` (part_000 lines 11-49): the guard chain in
source order — empty, length below 10, scheme, extension-or-query-params,
URL parseability. -/
def isValidVideoUrl (url : String) : Bool :=
  if url.data.isEmpty then false
  else if url.data.length < 10 then false
  else if ¬(startsWithStr url "http://" || startsWithStr url "https://") then false
  else if ¬(hasValidExtension url || hasVideoParams url) then false
  else canParseUrl url

/-- Result of `Scraper.determineUrlType`. -/
inductive UrlType
  | series
  | episode
deriving DecidableEq

/-- Embeds `Scraper.determineUrlType` (part_000 lines 69-88): lowercase the URL,
classify as `series` when a collection marker is present or when none of
the item markers `/episode`, `/watch/`, `/video/` occurs; otherwise
`episode`. -/
def determineUrlType (url : String) : UrlType :=
  let n := toLowerStr url
  if includesStr n "/anime/" || includesStr n "/category/" ||
     includesStr n "/series/" || includesStr n "/cartoon/" ||
     (¬includesStr n "/episode" && ¬includesStr n "/watch/" && ¬includesStr n "/video/")
  then UrlType.series
  else UrlType.episode

/-! ## Storage model (src/server/storage.ts) -/

/-- Download status strings used by the server. -/
inductive Status
  | queued
  | downloading
  | paused
  | completed
  | error
  | cancelled
deriving DecidableEq

/-- A row of the `downloads` table (shared/schema.ts lines 61-74).
Timestamps are modelled as abstract ticks. -/
structure Download where
  episodeId : Nat
  status : Status
  progress : Nat
  totalSize : Option Nat
  downloadedSize : Nat
  speed : Option Nat
  filePath : Option String
  errorMsg : Option String
  startedAt : Option Nat
  completedAt : Option Nat
  createdAt : Nat
deriving DecidableEq

/-- The insert payload accepted by `MemStorage.createDownload`
(`insertDownloadSchema` = the row minus `id`/`createdAt`; all defaulted or
nullable columns may be supplied by the caller). -/
structure InsertDownload where
  episodeId : Nat
  status : Option Status
  progress : Option Nat
  totalSize : Option Nat
  downloadedSize : Option Nat
  speed : Option Nat
  filePath : Option String
  errorMsg : Option String
  startedAt : Option Nat
  completedAt : Option Nat
deriving DecidableEq

/-- Association-list lookup, modelling `Map.prototype.get`. -/
def lookupKV {α : Type} (m : List (Nat × α)) (k : Nat) : Option α :=
  (m.find? fun p => p.fst == k).map Prod.snd

/-- Models `Map.prototype.set`: the binding for `k` becomes `v`. -/
def insertKV {α : Type} (m : List (Nat × α)) (k : Nat) (v : α) : List (Nat × α) :=
  (k, v) :: m.filter fun p => !(p.fst == k)

/-- Models `Map.prototype.delete`. -/
def eraseKV {α : Type} (m : List (Nat × α)) (k : Nat) : List (Nat × α) :=
  m.filter fun p => !(p.fst == k)

/-- The downloads part of `MemStorage` (storage.ts lines 48-70). -/
structure MemStorage where
  downloadsMap : List (Nat × Download)
  downloadCurrentId : Nat

/-- Embeds `MemStorage.createDownload` (storage.ts lines 206-225): a fresh id, a
record with hard-coded initial fields — only `episodeId` and `filePath`
come from the caller, and `insertDownload.filePath || null` turns an empty
string into `null`. -/
def MemStorage.createDownload (st : MemStorage) (ins : InsertDownload) (now : Nat) :
    Download × MemStorage :=
  let id := st.downloadCurrentId
  let d : Download :=
    { episodeId := ins.episodeId
      status := Status.queued
      progress := 0
      totalSize := none
      downloadedSize := 0
      speed := none
      filePath :=
        match ins.filePath with
        | some p => if p = "" then none else some p
        | none => none
      errorMsg := none
      startedAt := none
      completedAt := none
      createdAt := now }
  (d, { downloadsMap := insertKV st.downloadsMap id d, downloadCurrentId := id + 1 })

/-- Embeds `MemStorage.updateDownload` (storage.ts lines 227-235): merge a patch
into the stored record if it exists; the `{...download, ...data}` spread is
embedded as a record-update function. -/
def updateDownload (m : List (Nat × Download)) (id : Nat) (patch : Download → Download) :
    List (Nat × Download) :=
  match lookupKV m id with
  | none => m
  | some d => insertKV m id (patch d)

/-! ## Downloader model (src/server/services/downloader.ts) -/

/-- An entry of the module-level `activeDownloads` map (downloader.ts
lines 7-12): the abort controller (tracked by its aborted flag), the
recorded resume position, and whether a write stream is attached. -/
structure Handle where
  aborted : Bool
  resumePosition : Nat
  hasStream : Bool
deriving DecidableEq

/-- The state the downloader's control operations read and write: the
persisted download records, the `activeDownloads` map, and the sizes of
the files on disk (`none` = no file at that path). -/
structure DState where
  downloads : List (Nat × Download)
  active : List (Nat × Handle)
  files : String → Option Nat

/-- What `Downloader.downloadFile` computes before issuing the fetch
(downloader.ts lines 183-221): `resumePosition` is the on-disk size only
when the record's status is still `paused` and the file exists; a
`Range: bytes=resumePosition-` header is sent iff `resumePosition > 0`;
the write stream is opened with flag `'a'` iff `resumePosition > 0`
(otherwise `'w'`, truncating). -/
structure FetchInit where
  resumePosition : Nat
  rangeStart : Option Nat
  appendFlag : Bool
deriving DecidableEq

/-- The initialization part of `Downloader.downloadFile` (downloader.ts
lines 172-228), applied to the re-read record `d` and the `filePath`
argument. -/
def downloadFileInit (d : Download) (filePath : String) (files : String → Option Nat) :
    FetchInit :=
  let resumePosition :=
    if d.status = Status.paused then
      match files filePath with
      | some sz => sz
      | none => 0
    else 0
  { resumePosition := resumePosition
    rangeStart := if resumePosition > 0 then some resumePosition else none
    appendFlag := resumePosition > 0 }

/-- Embeds `Downloader.pauseDownload` (downloader.ts lines 86-104): `false` when no
active handle exists; otherwise abort the controller, close the stream,
persist status `paused`, return `true`.  The handle is never removed from
`activeDownloads`. -/
def pauseDownload (s : DState) (id : Nat) : Bool × DState :=
  match lookupKV s.active id with
  | none => (false, s)
  | some h =>
    (true,
      { s with
        active := insertKV s.active id { h with aborted := true }
        downloads := updateDownload s.downloads id fun d => { d with status := Status.paused } })

/-- The partial-file cleanup of `Downloader.cancelDownload` (downloader.ts
lines 152-157): when the record exists, has a `filePath`, and a file exists
at that path, the file is deleted (its size mapping set to `none`). -/
def cancelCleanup (downloads : List (Nat × Download)) (files : String → Option Nat)
    (id : Nat) : String → Option Nat :=
  match lookupKV downloads id with
  | some d =>
    match d.filePath with
    | some p =>
      if (files p).isSome then (fun q => if q = p then none else files q) else files
    | none => files
  | none => files

/-- The record patch `cancelDownload` persists (downloader.ts lines
160-164). -/
def cancelPatch (d : Download) : Download :=
  { d with status := Status.cancelled, progress := 0, downloadedSize := 0 }

def cancelDownload (s : DState) (id : Nat) : Bool × DState :=
  (true,
    { downloads := updateDownload s.downloads id cancelPatch
      active := eraseKV s.active id
      files := cancelCleanup s.downloads s.files id })

/-- Embeds `Downloader.resumeDownload` (downloader.ts lines 109-132): `false` when
the record is missing or not `paused`, or the episode has no download URL
(`""` is falsy); otherwise persist status `downloading`, then invoke
`downloadFile`, whose initialization re-reads the (now updated) record.
Returns the `FetchInit` that `downloadFile` computes so theorems can speak
about the issued request. -/
def resumeDownload (s : DState) (id : Nat) (episodeDownloadUrl : Option String) :
    Bool × DState × Option FetchInit :=
  match lookupKV s.downloads id with
  | none => (false, s, none)
  | some d =>
    if d.status ≠ Status.paused then (false, s, none)
    else if episodeDownloadUrl.getD "" = "" then (false, s, none)
    else
      let downloads' := updateDownload s.downloads id fun d0 => { d0 with status := Status.downloading }
      (true, { s with downloads := downloads' },
        (lookupKV downloads' id).map fun d1 => downloadFileInit d1 (d.filePath.getD "") s.files)

/-! ## Progress accounting inside `downloadFile` (downloader.ts 211-283) -/

/-- Embeds `parseInt(response.headers.get('content-length') || '0', 10)`: a missing
header counts as 0. -/
def jsContentLength (header : Option Nat) : Nat := header.getD 0

/-- Embeds `if (!download.totalSize) updateDownload(...)` — JS falsiness:
both `null` and `0` trigger the write of `resumePosition + contentLength`. -/
def persistedTotalSize (prevTotal : Option Nat) (resumePos contentLength : Nat) : Option Nat :=
  match prevTotal with
  | some t => if t = 0 then some (resumePos + contentLength) else some t
  | none => some (resumePos + contentLength)

/-- Computes `downloadedBytes` after the chunks in `chunks` have been processed. -/
def downloadedAfter (resumePos : Nat) (chunks : List Nat) : Nat := resumePos + chunks.sum

/-- Embeds `Math.floor((downloadedBytes / totalSize) * 100)`: exact when
`totalSize > 0`; division by zero gives a non-finite JS number, modelled as
`none`. -/
def jsFloorProgress (ds ts : Nat) : Option Nat :=
  if ts = 0 then none else some (ds * 100 / ts)

/-- The progress value the periodic sampler would persist after processing
the given chunks. -/
def progressSample (resumePos contentLength : Nat) (chunks : List Nat) : Option Nat :=
  jsFloorProgress (downloadedAfter resumePos chunks) (resumePos + contentLength)

/-! ## Series batch download (src/server/routes.ts lines 234-275) -/

/-- One episode as seen by the series branch of `POST /api/downloads`:
its stored `downloadUrl` (possibly `null`) and the outcome the resolver
(`getSourceHtml` + `parseEpisodePage`) would produce for it — either a
thrown error or a returned string (possibly `""` for "unresolved"). -/
structure EpisodeR where
  id : Nat
  downloadUrl : Option String
  resolveResult : Except Unit String

/-- The download URL an episode ends up with after the loop body: a truthy
stored URL is kept; otherwise resolution is attempted, a thrown error or an
invalid/empty result leaves the episode without a URL. -/
def finalUrl (e : EpisodeR) : Option String :=
  if e.downloadUrl.getD "" ≠ "" then e.downloadUrl
  else
    match e.resolveResult with
    | Except.error _ => none
    | Except.ok u => if u ≠ "" ∧ isValidVideoUrl u then some u else none

/-- The ids of the episodes for which the series branch creates and starts a
download record, in order (routes.ts lines 234-275): one per episode whose
final URL is truthy; episodes whose resolution fails or yields no valid URL
are skipped and the loop continues. -/
def seriesBatch : List EpisodeR → List Nat
  | [] => []
  | e :: rest =>
    match finalUrl e with
    | some _ => e.id :: seriesBatch rest
    | none => seriesBatch rest

/-! ## Sample records and states used to instantiate the theorems -/

/-- A download record mid-transfer, with a 4-byte partial file on disk. -/
def sampleDl : Download :=
  { episodeId := 1
    status := Status.downloading
    progress := 40
    totalSize := some 10
    downloadedSize := 4
    speed := some 1
    filePath := some "downloads/x.mp4"
    errorMsg := none
    startedAt := some 0
    completedAt := none
    createdAt := 0 }

/-- A state with `sampleDl` stored under id 1, an active handle for it, and
its partial file on disk. -/
def sampleState : DState :=
  { downloads := [(1, sampleDl)]
    active := [(1, { aborted := false, resumePosition := 0, hasStream := true })]
    files := fun p => if p = "downloads/x.mp4" then some 4 else none }

/-- A paused download record whose partial file holds 5 bytes. -/
def pausedDl : Download :=
  { episodeId := 1
    status := Status.paused
    progress := 50
    totalSize := some 10
    downloadedSize := 5
    speed := some 0
    filePath := some "downloads/f.mp4"
    errorMsg := none
    startedAt := some 0
    completedAt := none
    createdAt := 0 }

/-- The state `Resume` sees after `Start` then `Pause`: a paused record and a
5-byte partial file at its destination path. -/
def pausedState : DState :=
  { downloads := [(1, pausedDl)]
    active := []
    files := fun p => if p = "downloads/f.mp4" then some 5 else none }

/-- An episode whose download URL is already stored. -/
def epOk1 : EpisodeR :=
  { id := 1
    downloadUrl := some "https://cdn.example.com/video/ep1.mp4"
    resolveResult := Except.ok "" }

/-- An episode whose inline resolution throws. -/
def epBad : EpisodeR :=
  { id := 2
    downloadUrl := none
    resolveResult := Except.error () }

/-- An episode whose inline resolution succeeds with a valid media URL. -/
def epOk2 : EpisodeR :=
  { id := 3
    downloadUrl := none
    resolveResult := Except.ok "https://cdn.example.com/video/ep3.mp4" }

/-! ## Character-level lemmas for the sanitizer -/

theorem char_toNat_ofNat_of_lt {n : Nat} (h : n < 55296) : (Char.ofNat n).toNat = n := by
  have hv : n.isValidChar := Or.inl h
  simp [Char.ofNat, dif_pos hv, Char.ofNatAux, Char.toNat, UInt32.toNat]

theorem toNat_le_of_isWs {c : Char} (h : isWs c = true) : c.toNat ≤ 32 := by
  have hm : c ∈ wsChars := by simpa [isWs] using h
  have hall : ∀ d ∈ wsChars, d.toNat ≤ 32 := by decide
  exact hall c hm

theorem isHostile_toNat_notin {c : Char} (h : isHostile c = true) :
    ¬(97 ≤ c.toNat ∧ c.toNat ≤ 122) := by
  have hm : c ∈ hostileChars := by simpa [isHostile] using h
  have hall : ∀ d ∈ hostileChars, ¬(97 ≤ d.toNat ∧ d.toNat ≤ 122) := by decide
  exact hall c hm

theorem toLower_eq_of_not_upper {c : Char} (h : ¬(65 ≤ c.toNat ∧ c.toNat ≤ 90)) :
    Char.toLower c = c := by
  show (if c.toNat ≥ 65 ∧ c.toNat ≤ 90 then Char.ofNat (c.toNat + 32) else c) = c
  exact if_neg h

theorem toLower_toNat_of_upper {c : Char} (h : 65 ≤ c.toNat ∧ c.toNat ≤ 90) :
    (Char.toLower c).toNat = c.toNat + 32 := by
  show (if c.toNat ≥ 65 ∧ c.toNat ≤ 90 then Char.ofNat (c.toNat + 32) else c).toNat = c.toNat + 32
  rw [if_pos h]
  exact char_toNat_ofNat_of_lt (by omega)

theorem toLower_idem (c : Char) : Char.toLower (Char.toLower c) = Char.toLower c := by
  by_cases h : 65 ≤ c.toNat ∧ c.toNat ≤ 90
  · have h2 := toLower_toNat_of_upper h
    apply toLower_eq_of_not_upper
    omega
  · rw [toLower_eq_of_not_upper h, toLower_eq_of_not_upper h]

theorem isHostile_toLower {c : Char} (h : isHostile c = false) :
    isHostile (Char.toLower c) = false := by
  by_cases hu : 65 ≤ c.toNat ∧ c.toNat ≤ 90
  · have h2 := toLower_toNat_of_upper hu
    cases hh : isHostile (Char.toLower c)
    · rfl
    · exact absurd ⟨by omega, by omega⟩ (isHostile_toNat_notin hh)
  · rw [toLower_eq_of_not_upper hu]; exact h

theorem isWs_toLower {c : Char} (h : isWs c = false) :
    isWs (Char.toLower c) = false := by
  by_cases hu : 65 ≤ c.toNat ∧ c.toNat ≤ 90
  · have h2 := toLower_toNat_of_upper hu
    cases hh : isWs (Char.toLower c)
    · rfl
    · exfalso
      have := toNat_le_of_isWs hh
      omega
  · rw [toLower_eq_of_not_upper hu]; exact h

/-! ## Structural lemmas for the sanitizer -/

theorem mem_replaceHostile {c : Char} {l : List Char} (h : c ∈ replaceHostile l) :
    isHostile c = false := by
  simp only [replaceHostile, List.mem_map] at h
  obtain ⟨d, _, hd⟩ := h
  by_cases hh : isHostile d = true
  · rw [if_pos hh] at hd
    subst hd
    decide
  · rw [if_neg hh] at hd
    subst hd
    simpa using hh

theorem mem_collapseWsAux {c : Char} :
    ∀ (b : Bool) (l : List Char), c ∈ collapseWsAux b l →
      c = '-' ∨ (c ∈ l ∧ isWs c = false) := by
  intro b l
  induction l generalizing b with
  | nil => intro h; cases b <;> simp [collapseWsAux] at h
  | cons x xs ih =>
    intro h
    by_cases hx : isWs x = true
    · cases b with
      | true =>
        simp only [collapseWsAux, if_pos hx] at h
        rcases ih true h with h1 | ⟨h1, h2⟩
        · exact Or.inl h1
        · exact Or.inr ⟨List.mem_cons_of_mem x h1, h2⟩
      | false =>
        simp only [collapseWsAux, if_pos hx, List.mem_cons] at h
        rcases h with rfl | h
        · exact Or.inl rfl
        · rcases ih true h with h1 | ⟨h1, h2⟩
          · exact Or.inl h1
          · exact Or.inr ⟨List.mem_cons_of_mem x h1, h2⟩
    · have hx' : isWs x = false := by simpa using hx
      have hstep : c ∈ x :: collapseWsAux false xs := by
        cases b with
        | true => simpa only [collapseWsAux, if_neg hx] using h
        | false => simpa only [collapseWsAux, if_neg hx] using h
      rcases List.mem_cons.mp hstep with rfl | h2
      · exact Or.inr ⟨List.mem_cons_self c xs, hx'⟩
      · rcases ih false h2 with h1 | ⟨h1, h3⟩
        · exact Or.inl h1
        · exact Or.inr ⟨List.mem_cons_of_mem x h1, h3⟩

theorem collapseWsAux_eq_self {l : List Char} (h : ∀ c ∈ l, isWs c = false) :
    collapseWsAux false l = l := by
  induction l with
  | nil => rfl
  | cons x xs ih =>
    have hx : isWs x = false := h x (List.mem_cons_self x xs)
    have hstep : collapseWsAux false (x :: xs) = x :: collapseWsAux false xs := by
      simp only [collapseWsAux, hx]
      simp
    rw [hstep, ih fun c hc => h c (List.mem_cons_of_mem x hc)]

theorem replaceHostile_eq_self {l : List Char} (h : ∀ c ∈ l, isHostile c = false) :
    replaceHostile l = l := by
  induction l with
  | nil => rfl
  | cons x xs ih =>
    have hx : isHostile x = false := h x (List.mem_cons_self x xs)
    show (if isHostile x then '-' else x) :: replaceHostile xs = x :: xs
    rw [hx]
    simp only [if_neg Bool.false_ne_true]
    rw [ih fun c hc => h c (List.mem_cons_of_mem x hc)]

theorem map_toLower_eq_self {l : List Char} (h : ∀ c ∈ l, Char.toLower c = c) :
    l.map Char.toLower = l := by
  induction l with
  | nil => rfl
  | cons x xs ih =>
    simp only [List.map_cons, h x (List.mem_cons_self x xs),
      ih fun c hc => h c (List.mem_cons_of_mem x hc)]

/-- Every character of a sanitized name is non-hostile, non-whitespace, and
already lowercase. -/
theorem sanitize_chars {s : String} {c : Char} (h : c ∈ (sanitizePathName s).data) :
    isHostile c = false ∧ isWs c = false ∧ Char.toLower c = c := by
  simp only [sanitizePathName, List.mem_map] at h
  obtain ⟨e, he, rfl⟩ := h
  rcases mem_collapseWsAux false _ he with rfl | ⟨hmem, hws⟩
  · refine ⟨by decide, by decide, by decide⟩
  · exact ⟨isHostile_toLower (mem_replaceHostile hmem), isWs_toLower hws, toLower_idem e⟩

/-! ## Claim theorems -/

/-- C4 (counterexample): the sanitizer applied to `"My Show: Part 1"` does
NOT return `"my-show-part-1"`: the `':'` is replaced by `'-'` in the first
pass and the space next to it by another `'-'` in the second pass, so the
two passes produce adjacent hyphens instead of merging them. -/
theorem c4_sanitize_myShow_ne :
    sanitizePathName "My Show: Part 1" ≠ "my-show-part-1" := by decide

/-- C4 (amended): the sanitizer applied to the title `"My Show: Part 1"`
returns exactly `"my-show--part-1"` — hostile characters replaced by a
hyphen, whitespace runs collapsed to hyphens, result lowercased, with a
double hyphen where a replaced `':'` is adjacent to a replaced space. -/
theorem c4_sanitize_myShow :
    sanitizePathName "My Show: Part 1" = "my-show--part-1" := by decide

/-- C5: the path-sanitization function is pure and idempotent: for every
string `s`, `sanitize(sanitize(s)) = sanitize(s)`. -/
theorem c5_sanitizePathName_idem (s : String) :
    sanitizePathName (sanitizePathName s) = sanitizePathName s := by
  show String.mk ((collapseWs (replaceHostile (sanitizePathName s).data)).map Char.toLower)
      = sanitizePathName s
  rw [replaceHostile_eq_self fun c hc => (sanitize_chars hc).1]
  rw [show collapseWs (sanitizePathName s).data = (sanitizePathName s).data from
    collapseWsAux_eq_self fun c hc => (sanitize_chars hc).2.1]
  rw [map_toLower_eq_self fun c hc => (sanitize_chars hc).2.2]

/-- C10: `MemStorage.createDownload` yields status `queued`, progress 0,
downloadedSize 0, totalSize null, speed null, error null, startedAt null
and completedAt null for every insert input, ignoring any status, progress,
size or error values supplied — only `episodeId` and `filePath` come from
the caller (with `filePath || null` turning `""` into `null`). -/
theorem c10_createDownload_fields (st : MemStorage) (ins : InsertDownload) (now : Nat) :
    (st.createDownload ins now).1.status = Status.queued ∧
    (st.createDownload ins now).1.progress = 0 ∧
    (st.createDownload ins now).1.downloadedSize = 0 ∧
    (st.createDownload ins now).1.totalSize = none ∧
    (st.createDownload ins now).1.speed = none ∧
    (st.createDownload ins now).1.errorMsg = none ∧
    (st.createDownload ins now).1.startedAt = none ∧
    (st.createDownload ins now).1.completedAt = none ∧
    (st.createDownload ins now).1.episodeId = ins.episodeId ∧
    (st.createDownload ins now).1.filePath =
      (match ins.filePath with
       | some p => if p = "" then none else some p
       | none => none) :=
  ⟨rfl, rfl, rfl, rfl, rfl, rfl, rfl, rfl, rfl, rfl⟩

/-- C7 (counterexample): when the response carries no content-length header
the code persists `totalSize = 0` (a known, non-null value), after which a
single 5-byte chunk makes `downloadedSize = 5 > 0 = totalSize`, and the
progress expression divides by zero instead of yielding a value in
`[0, 100]`. -/
theorem c7_counterexample :
    persistedTotalSize none 0 (jsContentLength none) = some 0 ∧
    downloadedAfter 0 [5] = 5 ∧
    ¬downloadedAfter 0 [5] ≤ 0 ∧
    progressSample 0 (jsContentLength none) [5] = none := by decide

/-- C7 (amended): once the response carries a content-length header (so
`totalSize = resumePosition + contentLength > 0`) and the stream delivers at
most `contentLength` bytes, then after every processed prefix of the chunk
stream `downloadedSize ≤ totalSize`, the sampled progress equals
`floor(downloadedSize / totalSize * 100)`, and that value lies in
`[0, 100]`; the persisted total is `totalSize` itself.  Without a
content-length header the invariant fails (see the counterexample). -/
theorem c7_progress_invariant (resumePos contentLength : Nat) (chunks sofar : List Nat)
    (hpre : sofar <+: chunks) (hsum : chunks.sum ≤ contentLength)
    (hts : 0 < resumePos + contentLength) :
    downloadedAfter resumePos sofar ≤ resumePos + contentLength ∧
    progressSample resumePos contentLength sofar =
      some (downloadedAfter resumePos sofar * 100 / (resumePos + contentLength)) ∧
    downloadedAfter resumePos sofar * 100 / (resumePos + contentLength) ≤ 100 ∧
    persistedTotalSize none resumePos contentLength = some (resumePos + contentLength) := by
  obtain ⟨t, rfl⟩ := hpre
  have hsofar : sofar.sum ≤ contentLength := by
    have : (sofar ++ t).sum = sofar.sum + t.sum := List.sum_append
    omega
  have hbound : downloadedAfter resumePos sofar ≤ resumePos + contentLength := by
    simp only [downloadedAfter]
    omega
  refine ⟨hbound, ?_, ?_, rfl⟩
  · simp only [progressSample, jsFloorProgress]
    rw [if_neg (by omega)]
  · have h1 : downloadedAfter resumePos sofar * 100 ≤ (resumePos + contentLength) * 100 :=
      Nat.mul_le_mul_right 100 hbound
    have h2 : downloadedAfter resumePos sofar * 100 / (resumePos + contentLength) ≤
        (resumePos + contentLength) * 100 / (resumePos + contentLength) :=
      Nat.div_le_div_right h1
    rwa [Nat.mul_div_cancel_left 100 hts] at h2

/-- C7 (witness): the amended invariant at a concrete run — resume position
0, content-length 10, chunks `[4, 6]`, sampled after the first chunk. -/
theorem c7_progress_invariant_witness :
    ([4] <+: [4, 6] ∧ [4, 6].sum ≤ 10 ∧ 0 < 0 + 10) ∧
    (downloadedAfter 0 [4] ≤ 0 + 10 ∧
     progressSample 0 10 [4] = some (downloadedAfter 0 [4] * 100 / (0 + 10)) ∧
     downloadedAfter 0 [4] * 100 / (0 + 10) ≤ 100 ∧
     persistedTotalSize none 0 10 = some (0 + 10)) :=
  ⟨⟨⟨[6], rfl⟩, by decide, by decide⟩,
    c7_progress_invariant 0 10 [4, 6] [4] ⟨[6], rfl⟩ (by decide) (by decide)⟩

/-- C3: `isValidVideoUrl` applies its checks conjunctively — any URL it
accepts has length at least 10, an `http`/`https` scheme, a video extension
or a `file`/`source`/`video` query parameter, and parses as a URL (so
failing any one check rejects the URL) — and on the spec's five examples it
rejects `""`, `"yeni"`, `"ftp://x.mp4"` and `"https://x.com/noext"`, and
accepts `"https://cdn.example.com/video/ep1.mp4"`. -/
theorem c3_validateMediaUrl (url : String) (h : isValidVideoUrl url = true) :
    (10 ≤ url.data.length ∧
     (startsWithStr url "http://" || startsWithStr url "https://") = true ∧
     (hasValidExtension url || hasVideoParams url) = true ∧
     canParseUrl url = true) ∧
    (isValidVideoUrl "" = false ∧
     isValidVideoUrl "yeni" = false ∧
     isValidVideoUrl "ftp://x.mp4" = false ∧
     isValidVideoUrl "https://x.com/noext" = false ∧
     isValidVideoUrl "https://cdn.example.com/video/ep1.mp4" = true) := by
  refine ⟨?_, by decide, by decide, by decide, by decide, by decide⟩
  unfold isValidVideoUrl at h
  split_ifs at h with h1 h2 h3 h4
  exact ⟨by omega, h3, h4, h⟩

/-- C3 (witness): the generic direction instantiated at the accepted
sample URL. -/
theorem c3_validateMediaUrl_witness :
    isValidVideoUrl "https://cdn.example.com/video/ep1.mp4" = true ∧
    ((10 ≤ ("https://cdn.example.com/video/ep1.mp4" : String).data.length ∧
      (startsWithStr "https://cdn.example.com/video/ep1.mp4" "http://" ||
       startsWithStr "https://cdn.example.com/video/ep1.mp4" "https://") = true ∧
      (hasValidExtension "https://cdn.example.com/video/ep1.mp4" ||
       hasVideoParams "https://cdn.example.com/video/ep1.mp4") = true ∧
      canParseUrl "https://cdn.example.com/video/ep1.mp4" = true) ∧
     (isValidVideoUrl "" = false ∧
      isValidVideoUrl "yeni" = false ∧
      isValidVideoUrl "ftp://x.mp4" = false ∧
      isValidVideoUrl "https://x.com/noext" = false ∧
      isValidVideoUrl "https://cdn.example.com/video/ep1.mp4" = true)) :=
  ⟨by decide, c3_validateMediaUrl "https://cdn.example.com/video/ep1.mp4" (by decide)⟩

/-- C6: classification is a pure function of the URL string: a URL whose
lowercasing contains the collection marker `/cartoon/` classifies as
`series`; a URL containing the item marker `/watch/` but none of the four
collection markers classifies as `episode`; a URL containing no item-like
marker (`/episode`, `/watch/`, `/video/`) classifies as `series` by
default; concretely `"https://site/cartoon/foo"` is a series URL and
`"https://site/watch/foo-episode-3"` an episode URL. -/
theorem c6_determineUrlType (url : String) :
    (includesStr (toLowerStr url) "/cartoon/" = true → determineUrlType url = UrlType.series) ∧
    (includesStr (toLowerStr url) "/anime/" = false →
     includesStr (toLowerStr url) "/category/" = false →
     includesStr (toLowerStr url) "/series/" = false →
     includesStr (toLowerStr url) "/cartoon/" = false →
     includesStr (toLowerStr url) "/watch/" = true →
     determineUrlType url = UrlType.episode) ∧
    (includesStr (toLowerStr url) "/episode" = false →
     includesStr (toLowerStr url) "/watch/" = false →
     includesStr (toLowerStr url) "/video/" = false →
     determineUrlType url = UrlType.series) ∧
    determineUrlType "https://site/cartoon/foo" = UrlType.series ∧
    determineUrlType "https://site/watch/foo-episode-3" = UrlType.episode := by
  refine ⟨?_, ?_, ?_, by decide, by decide⟩
  · intro h
    simp [determineUrlType, h]
  · intro h1 h2 h3 h4 h5
    simp [determineUrlType, h1, h2, h3, h4, h5]
  · intro h1 h2 h3
    simp [determineUrlType, h1, h2, h3]

/-- C6 (witness): the collection-marker direction instantiated at the
concrete series URL. -/
theorem c6_determineUrlType_witness :
    includesStr (toLowerStr "https://site/cartoon/foo") "/cartoon/" = true ∧
    determineUrlType "https://site/cartoon/foo" = UrlType.series :=
  ⟨by decide, (c6_determineUrlType "https://site/cartoon/foo").1 (by decide)⟩

theorem seriesBatch_append (l₁ l₂ : List EpisodeR) :
    seriesBatch (l₁ ++ l₂) = seriesBatch l₁ ++ seriesBatch l₂ := by
  induction l₁ with
  | nil => rfl
  | cons e rest ih => cases h : finalUrl e <;> simp [seriesBatch, h, ih]

theorem mem_seriesBatch {e : EpisodeR} {l : List EpisodeR} (he : e ∈ l)
    (hsome : (finalUrl e).isSome = true) : e.id ∈ seriesBatch l := by
  induction l with
  | nil => cases he
  | cons x xs ih =>
    rcases List.mem_cons.mp he with rfl | hmem
    · cases h : finalUrl e with
      | none => rw [h] at hsome; cases hsome
      | some u => simp [seriesBatch, h]
    · cases h : finalUrl x with
      | none => simpa [seriesBatch, h] using ih hmem
      | some u => simp only [seriesBatch, h, List.mem_cons]; exact Or.inr (ih hmem)

/-- C8: in a batch series download, an episode whose resolution fails
contributes nothing but does not abort the batch — the created-and-started
downloads of `pre ++ bad :: post` are exactly those of `pre` and `post`,
and every episode with a stored or successfully resolved valid media URL
gets its download record regardless of the failing sibling. -/
theorem c8_batch_isolates_failures (pre post : List EpisodeR) (bad : EpisodeR)
    (hbad : finalUrl bad = none) :
    seriesBatch (pre ++ bad :: post) = seriesBatch pre ++ seriesBatch post ∧
    (∀ e ∈ pre ++ bad :: post, (finalUrl e).isSome = true →
      e.id ∈ seriesBatch (pre ++ bad :: post)) := by
  constructor
  · rw [seriesBatch_append]
    simp [seriesBatch, hbad]
  · intro e he hsome
    exact mem_seriesBatch he hsome

/-- C8 (witness): a three-episode batch where the middle episode's inline
resolution throws — both siblings still get download records, in particular
the one resolved after the failure. -/
theorem c8_batch_witness :
    finalUrl epBad = none ∧
    seriesBatch ([epOk1] ++ epBad :: [epOk2]) = seriesBatch [epOk1] ++ seriesBatch [epOk2] ∧
    epOk2.id ∈ seriesBatch ([epOk1] ++ epBad :: [epOk2]) := by
  have key := c8_batch_isolates_failures [epOk1] [epOk2] epBad (by decide)
  exact ⟨by decide, key.1, key.2 epOk2 (by simp) (by decide)⟩


/-! ## Map lemmas -/

theorem lookupKV_insertKV_self {α : Type} (m : List (Nat × α)) (k : Nat) (v : α) :
    lookupKV (insertKV m k v) k = some v := by
  unfold lookupKV insertKV
  rw [List.find?_cons_of_pos _ (by simp)]
  rfl

theorem filter_ne_insertKV {α : Type} (m : List (Nat × α)) (k : Nat) (v : α) :
    (insertKV m k v).filter (fun p => !(p.fst == k)) = m.filter (fun p => !(p.fst == k)) := by
  unfold insertKV
  rw [List.filter_cons_of_neg (by simp), List.filter_filter]
  simp

theorem insertKV_insertKV {α : Type} (m : List (Nat × α)) (k : Nat) (v w : α) :
    insertKV (insertKV m k v) k w = insertKV m k w := by
  show (k, w) :: (insertKV m k v).filter (fun p => !(p.fst == k)) = insertKV m k w
  rw [filter_ne_insertKV]
  rfl

theorem eraseKV_idem {α : Type} (m : List (Nat × α)) (k : Nat) :
    eraseKV (eraseKV m k) k = eraseKV m k := by
  unfold eraseKV
  rw [List.filter_filter]
  simp

theorem cancelCleanup_deletes {m : List (Nat × Download)} {files : String → Option Nat}
    {id : Nat} {d : Download} (hd : lookupKV m id = some d) {p : String}
    (hp : d.filePath = some p) : cancelCleanup m files id p = none := by
  unfold cancelCleanup
  rw [hd]
  show (match d.filePath with
        | some p =>
          if (files p).isSome then (fun q => if q = p then none else files q) else files
        | none => files) p = none
  rw [hp]
  show (if (files p).isSome then (fun q => if q = p then none else files q) else files) p = none
  by_cases h : (files p).isSome
  · rw [if_pos h]
    simp
  · rw [if_neg h]
    simpa using h

theorem cancelCleanup_stable {m : List (Nat × Download)} {g : String → Option Nat}
    {id : Nat} {d : Download} (hd : lookupKV m id = some d)
    (hnone : ∀ p, d.filePath = some p → g p = none) :
    cancelCleanup m g id = g := by
  unfold cancelCleanup
  rw [hd]
  show (match d.filePath with
        | some p => if (g p).isSome then (fun q => if q = p then none else g q) else g
        | none => g) = g
  cases hfp : d.filePath with
  | none => rfl
  | some p =>
    show (if (g p).isSome then (fun q => if q = p then none else g q) else g) = g
    rw [hnone p hfp]
    simp

theorem pauseDownload_eq_of_some {s : DState} {id : Nat} {h : Handle}
    (hh : lookupKV s.active id = some h) :
    pauseDownload s id =
      (true,
        { s with
          active := insertKV s.active id { h with aborted := true }
          downloads := updateDownload s.downloads id fun d => { d with status := Status.paused } }) := by
  unfold pauseDownload
  rw [hh]

/-- C9: after a successful `Pause` (which returned `true`), the runtime
handle stays registered in the `activeDownloads` map (`pauseDownload` never
deletes it, it only aborts the controller in place), so an immediately
following sequential `Pause` on the same id again finds the handle and
returns `true` rather than `false`. -/
theorem c9_pause_keeps_handle (s : DState) (id : Nat) (h : Handle)
    (hh : lookupKV s.active id = some h) :
    (pauseDownload s id).1 = true ∧
    lookupKV (pauseDownload s id).2.active id = some { h with aborted := true } ∧
    (pauseDownload (pauseDownload s id).2 id).1 = true := by
  have h1 := pauseDownload_eq_of_some hh
  have h2 : lookupKV (pauseDownload s id).2.active id = some { h with aborted := true } := by
    rw [h1]
    exact lookupKV_insertKV_self _ _ _
  have h3 := pauseDownload_eq_of_some h2
  exact ⟨by rw [h1], h2, by rw [h3]⟩

/-- C2: `Cancel` is idempotent and total: it returns `true` on the first
and on a second call, and afterwards the persisted record has status
`cancelled`, progress 0 and downloadedSize 0, the partial file at the
record's destination path is gone, and the second call leaves the state
exactly as the first left it. -/
theorem c2_cancel_idempotent_total (s : DState) (id : Nat) (d : Download)
    (hd : lookupKV s.downloads id = some d) :
    (cancelDownload s id).1 = true ∧
    (cancelDownload (cancelDownload s id).2 id).1 = true ∧
    lookupKV (cancelDownload s id).2.downloads id = some (cancelPatch d) ∧
    (cancelPatch d).status = Status.cancelled ∧
    (cancelPatch d).progress = 0 ∧
    (cancelPatch d).downloadedSize = 0 ∧
    (∀ p, d.filePath = some p → (cancelDownload s id).2.files p = none) ∧
    (cancelDownload (cancelDownload s id).2 id).2 = (cancelDownload s id).2 := by
  have hdl : (cancelDownload s id).2.downloads = insertKV s.downloads id (cancelPatch d) := by
    show updateDownload s.downloads id cancelPatch = _
    unfold updateDownload
    rw [hd]
  have hlook : lookupKV (cancelDownload s id).2.downloads id = some (cancelPatch d) := by
    rw [hdl]
    exact lookupKV_insertKV_self _ _ _
  have hfiles : ∀ p, d.filePath = some p → (cancelDownload s id).2.files p = none := by
    intro p hp
    exact cancelCleanup_deletes hd hp
  refine ⟨rfl, rfl, hlook, rfl, rfl, rfl, hfiles, ?_⟩
  show ({ downloads := updateDownload (cancelDownload s id).2.downloads id cancelPatch
          active := eraseKV (cancelDownload s id).2.active id
          files := cancelCleanup (cancelDownload s id).2.downloads (cancelDownload s id).2.files id } : DState)
      = (cancelDownload s id).2
  have e1 : updateDownload (cancelDownload s id).2.downloads id cancelPatch
      = (cancelDownload s id).2.downloads := by
    unfold updateDownload
    rw [hlook, hdl]
    show insertKV (insertKV s.downloads id (cancelPatch d)) id (cancelPatch (cancelPatch d))
        = insertKV s.downloads id (cancelPatch d)
    exact insertKV_insertKV _ _ _ _
  have e2 : eraseKV (cancelDownload s id).2.active id = (cancelDownload s id).2.active := by
    show eraseKV (eraseKV s.active id) id = eraseKV s.active id
    exact eraseKV_idem _ _
  have e3 : cancelCleanup (cancelDownload s id).2.downloads (cancelDownload s id).2.files id
      = (cancelDownload s id).2.files := by
    refine cancelCleanup_stable hlook ?_
    intro p hp
    exact hfiles p hp
  rw [e1, e2, e3]

/-- C1 (code-bug evaluation): `Resume` on a paused download whose partial
file holds 5 bytes returns `true`, but the fetch it issues carries NO
`Range` header and a resume position of 0, with the file reopened in
truncating `'w'` mode — because `resumeDownload` persists status
`downloading` before `downloadFile` re-reads the record, the
`status === 'paused'` guard around the on-disk re-measurement never fires.
The claim requires `rangeStart = some 5` (the on-disk size). -/
theorem c1_resume_ignores_disk :
    (resumeDownload pausedState 1 (some "https://cdn.example.com/video/ep1.mp4")).1 = true ∧
    pausedState.files "downloads/f.mp4" = some 5 ∧
    (resumeDownload pausedState 1 (some "https://cdn.example.com/video/ep1.mp4")).2.2 =
      some { resumePosition := 0, rangeStart := none, appendFlag := false } := by
  refine ⟨rfl, rfl, ?_⟩
  rfl

/-- C9 (witness): the pause-twice behaviour at the concrete sample state,
whose id 1 has an active handle. -/
theorem c9_pause_keeps_handle_witness :
    lookupKV sampleState.active 1 =
      some { aborted := false, resumePosition := 0, hasStream := true } ∧
    ((pauseDownload sampleState 1).1 = true ∧
     lookupKV (pauseDownload sampleState 1).2.active 1 =
       some { aborted := true, resumePosition := 0, hasStream := true } ∧
     (pauseDownload (pauseDownload sampleState 1).2 1).1 = true) :=
  ⟨by decide,
    c9_pause_keeps_handle sampleState 1
      { aborted := false, resumePosition := 0, hasStream := true } (by decide)⟩

/-- C2 (witness): cancellation of the concrete sample download: both calls
return `true`, the record is reset, the partial file at
`"downloads/x.mp4"` is gone, and the second call changes nothing. -/
theorem c2_cancel_witness :
    lookupKV sampleState.downloads 1 = some sampleDl ∧
    (cancelDownload sampleState 1).1 = true ∧
    (cancelDownload (cancelDownload sampleState 1).2 1).1 = true ∧
    lookupKV (cancelDownload sampleState 1).2.downloads 1 = some (cancelPatch sampleDl) ∧
    (cancelPatch sampleDl).status = Status.cancelled ∧
    (cancelPatch sampleDl).progress = 0 ∧
    (cancelPatch sampleDl).downloadedSize = 0 ∧
    sampleDl.filePath = some "downloads/x.mp4" ∧
    (cancelDownload sampleState 1).2.files "downloads/x.mp4" = none ∧
    (cancelDownload (cancelDownload sampleState 1).2 1).2 = (cancelDownload sampleState 1).2 := by
  have key := c2_cancel_idempotent_total sampleState 1 sampleDl (by decide)
  exact ⟨by decide, key.1, key.2.1, key.2.2.1, key.2.2.2.1, key.2.2.2.2.1,
    key.2.2.2.2.2.1, by decide, key.2.2.2.2.2.2.1 "downloads/x.mp4" (by decide),
    key.2.2.2.2.2.2.2⟩

end WcofunDL

